import Mathlib

/-!
Verification of the pricing core of the DeepPricing repository
(`src/math_models.py`): the scalar Black-Scholes pricing function
`black_scholes_price`, the geometric-Brownian-motion simulator
`stock_path`, and the path-wise pricing driver `option_path`.

The Python floating-point arithmetic is embedded into the real numbers ℝ.
The pseudo-random source (`np.random.default_rng`) is modelled as an
explicit stream of draws passed to the simulator: the `numpy` generator is a
deterministic function of its seed, so a seeded run corresponds to
applying the simulator to the stream determined by that seed.
`scipy.stats.norm.cdf` is modelled as the mathematical standard normal
cumulative distribution function `normCdf`.
-/

namespace DeepPricing

/-- The standard normal cumulative distribution function, modelling
`scipy.stats.norm.cdf`: the integral of the standard normal density over
`(-∞, x]`. -/
noncomputable def normCdf (x : ℝ) : ℝ :=
  ∫ t in Set.Iic x, ProbabilityTheory.gaussianPDFReal 0 1 t

/-- The `RISK_FREE` module constant of `math_models.py` (line 35). -/
noncomputable def RISK_FREE : ℝ := 0.02

/-- Value computed by the `option_type == "call"` branch of
`black_scholes_price` (`math_models.py` lines 74-77). -/
noncomputable def bs_call (S0 K T sigma r : ℝ) : ℝ :=
  let d1 := (Real.log (S0 / K) + (r + 0.5 * sigma ^ 2) * T) / (sigma * Real.sqrt T)
  let d2 := d1 - sigma * Real.sqrt T
  S0 * normCdf d1 - K * Real.exp (-r * T) * normCdf d2

/-- Value computed by the `option_type == "put"` branch of
`black_scholes_price` (`math_models.py` lines 79-82). -/
noncomputable def bs_put (S0 K T sigma r : ℝ) : ℝ :=
  let d1 := (Real.log (S0 / K) + (r + 0.5 * sigma ^ 2) * T) / (sigma * Real.sqrt T)
  let d2 := d1 - sigma * Real.sqrt T
  K * Real.exp (-r * T) * normCdf (-d2) - S0 * normCdf (-d1)

/-- Model of `black_scholes_price` (`math_models.py` lines 38-84): returns the call
value for `option_type = "call"`, the put value for `"put"`, and `None`
(here `none`) for any other string.  No input validation is performed. -/
noncomputable def black_scholes_price (S0 K T sigma : ℝ) (option_type : String)
    (r : ℝ) : Option ℝ :=
  if option_type = "call" then some (bs_call S0 K T sigma r)
  else if option_type = "put" then some (bs_put S0 K T sigma r)
  else none

/-- A two-column `pandas.DataFrame {"time": ..., "price": ...}` as returned
by `stock_path` and `option_path`. -/
structure PathFrame where
  time : List ℝ
  price : List ℝ

/-- The price recursion of `stock_path` (`math_models.py` lines 136-142):
`X_grid[0] = x0` and
`X_grid[i+1] = X_grid[i] * exp((mu - 0.5*sigma**2)*dt + sigma*dW[i])`,
where `dW` is the stream of draws from `rng.normal(0, sqrt dt, n_steps)`. -/
noncomputable def X_grid (x0 mu sigma dt : ℝ) (dW : ℕ → ℝ) : ℕ → ℝ
  | 0 => x0
  | i + 1 => X_grid x0 mu sigma dt dW i
      * Real.exp ((mu - 0.5 * sigma ^ 2) * dt + sigma * dW i)

/-- Model of `stock_path` (`math_models.py` lines 87-144).  `dW` is the stream of
increments drawn by `rng.normal(loc=0.0, scale=sqrt(dt), size=n_steps)`;
only the first `n_steps` entries are used.  The time grid is
`np.linspace(0.0, T, n_steps + 1)`, whose `i`-th point is `i * (T/n_steps)`.
The source performs no validation of `T`, `n_steps`, `x0`, `mu` or
`sigma`. -/
noncomputable def stock_path (T : ℝ) (n_steps : ℕ) (x0 mu sigma : ℝ)
    (dW : ℕ → ℝ) : PathFrame :=
  let dt := T / n_steps
  { time := (List.range (n_steps + 1)).map (fun (i : ℕ) => (i : ℝ) * dt)
    price := (List.range (n_steps + 1)).map (X_grid x0 mu sigma dt dW) }

/-- Model of `option_path` (`math_models.py` lines 147-198): `n = len(t_grid)`,
`X_grid` starts as `np.zeros(n)`; for `option_type = "call"` (resp.
`"put"`) every entry is overwritten with
`black_scholes_price(S_grid[i], K, T, sigma, "call"/"put", r)`, and for
any other string the zeros are returned untouched.  The source performs
no validation of prices, strike, maturity or volatility. -/
noncomputable def option_path (t_grid S_grid : List ℝ) (K T sigma : ℝ)
    (option_type : String) (r : ℝ) : PathFrame :=
  let n := t_grid.length
  let xg : ℕ → ℝ :=
    if option_type = "call" then fun i => bs_call (S_grid.getD i 0) K T sigma r
    else if option_type = "put" then fun i => bs_put (S_grid.getD i 0) K T sigma r
    else fun _ => 0
  { time := t_grid
    price := (List.range n).map xg }

/-! ### Helper lemmas -/

/-- The standard normal density is an even function. -/
lemma gaussianPDFReal_std_neg (t : ℝ) :
    ProbabilityTheory.gaussianPDFReal 0 1 (-t)
      = ProbabilityTheory.gaussianPDFReal 0 1 t := by
  simp [ProbabilityTheory.gaussianPDFReal, neg_sq]

/-- Symmetry of the standard normal CDF: `Φ(x) + Φ(-x) = 1`. -/
lemma normCdf_add_neg (x : ℝ) : normCdf x + normCdf (-x) = 1 := by
  have hint : MeasureTheory.Integrable (ProbabilityTheory.gaussianPDFReal 0 1) :=
    ProbabilityTheory.integrable_gaussianPDFReal 0 1
  have h2 : normCdf (-x)
      = ∫ t in Set.Ioi x, ProbabilityTheory.gaussianPDFReal 0 1 t := by
    have hc : (∫ t in Set.Iic (-x), ProbabilityTheory.gaussianPDFReal 0 1 t)
        = ∫ t in Set.Iic (-x), ProbabilityTheory.gaussianPDFReal 0 1 (-t) :=
      MeasureTheory.setIntegral_congr_fun measurableSet_Iic
        fun t _ => (gaussianPDFReal_std_neg t).symm
    rw [normCdf, hc, integral_comp_neg_Iic, neg_neg]
  have hsplit : (∫ t in Set.Iic x, ProbabilityTheory.gaussianPDFReal 0 1 t)
      + (∫ t in Set.Ioi x, ProbabilityTheory.gaussianPDFReal 0 1 t)
      = ∫ t, ProbabilityTheory.gaussianPDFReal 0 1 t := by
    have := MeasureTheory.integral_add_compl
      (measurableSet_Iic : MeasurableSet (Set.Iic x)) hint
    rwa [Set.compl_Iic] at this
  rw [normCdf, h2, hsplit,
    ProbabilityTheory.integral_gaussianPDFReal_eq_one 0 one_ne_zero]

/-! ### Claims -/

/-- C1: for every S > 0, K > 0, T > 0, sigma > 0 and rate r, the scalar
pricing function with option class "call" returns
`S·Φ(d1) − K·e^(−rT)·Φ(d2)` and with option class "put" returns
`K·e^(−rT)·Φ(−d2) − S·Φ(−d1)`, where
`d1 = (ln(S/K) + (r + 0.5·sigma²)·T)/(sigma·√T)`, `d2 = d1 − sigma·√T`,
and Φ is the standard normal CDF. -/
theorem black_scholes_price_formula (S K T sigma r : ℝ)
    (hS : 0 < S) (hK : 0 < K) (hT : 0 < T) (hsig : 0 < sigma) :
    black_scholes_price S K T sigma ("call") r
      = some (S * normCdf ((Real.log (S / K) + (r + 0.5 * sigma ^ 2) * T)
              / (sigma * Real.sqrt T))
          - K * Real.exp (-r * T)
            * normCdf ((Real.log (S / K) + (r + 0.5 * sigma ^ 2) * T)
                / (sigma * Real.sqrt T) - sigma * Real.sqrt T))
    ∧ black_scholes_price S K T sigma ("put") r
      = some (K * Real.exp (-r * T)
            * normCdf (-((Real.log (S / K) + (r + 0.5 * sigma ^ 2) * T)
                / (sigma * Real.sqrt T) - sigma * Real.sqrt T))
          - S * normCdf (-((Real.log (S / K) + (r + 0.5 * sigma ^ 2) * T)
                / (sigma * Real.sqrt T)))) := by
  constructor <;> simp [black_scholes_price, bs_call, bs_put]

/-- Witness for C1 at S = K = T = sigma = 1, r = 0. -/
theorem black_scholes_price_formula_witness :
    (0:ℝ) < 1 ∧
    (black_scholes_price 1 1 1 1 ("call") 0
      = some (1 * normCdf ((Real.log (1 / 1) + (0 + 0.5 * 1 ^ 2) * 1)
              / (1 * Real.sqrt 1))
          - 1 * Real.exp (-0 * 1)
            * normCdf ((Real.log (1 / 1) + (0 + 0.5 * 1 ^ 2) * 1)
                / (1 * Real.sqrt 1) - 1 * Real.sqrt 1))
    ∧ black_scholes_price 1 1 1 1 ("put") 0
      = some (1 * Real.exp (-0 * 1)
            * normCdf (-((Real.log (1 / 1) + (0 + 0.5 * 1 ^ 2) * 1)
                / (1 * Real.sqrt 1) - 1 * Real.sqrt 1))
          - 1 * normCdf (-((Real.log (1 / 1) + (0 + 0.5 * 1 ^ 2) * 1)
                / (1 * Real.sqrt 1))))) :=
  ⟨one_pos, black_scholes_price_formula 1 1 1 1 0
    one_pos one_pos one_pos one_pos⟩

/-- C8: put-call parity.  For every S > 0, K > 0, T > 0, sigma > 0 and
rate r, the call and put prices of the scalar pricing function with
matching parameters satisfy
`call − put = S − K·e^(−rT)` exactly in real arithmetic. -/
theorem put_call_parity (S K T sigma r : ℝ)
    (hS : 0 < S) (hK : 0 < K) (hT : 0 < T) (hsig : 0 < sigma) :
    (black_scholes_price S K T sigma ("call") r).getD 0
      - (black_scholes_price S K T sigma ("put") r).getD 0
      = S - K * Real.exp (-r * T) := by
  simp only [black_scholes_price, String.reduceEq, reduceIte,
    Option.getD_some, bs_call, bs_put]
  have h1 := normCdf_add_neg ((Real.log (S / K) + (r + 0.5 * sigma ^ 2) * T)
    / (sigma * Real.sqrt T))
  have h2 := normCdf_add_neg ((Real.log (S / K) + (r + 0.5 * sigma ^ 2) * T)
    / (sigma * Real.sqrt T) - sigma * Real.sqrt T)
  linear_combination S * h1 - K * Real.exp (-r * T) * h2

/-- Witness for C8 at S = K = T = sigma = 1, r = 0. -/
theorem put_call_parity_witness :
    (0:ℝ) < 1 ∧
    (black_scholes_price 1 1 1 1 ("call") 0).getD 0
      - (black_scholes_price 1 1 1 1 ("put") 0).getD 0
      = 1 - 1 * Real.exp (-0 * 1) :=
  ⟨one_pos, put_call_parity 1 1 1 1 0 one_pos one_pos one_pos one_pos⟩

/-- Positivity of the multiplicative update, by induction on the step. -/
lemma X_grid_pos (x0 mu sigma dt : ℝ) (dW : ℕ → ℝ) (hx0 : 0 < x0) :
    ∀ i, 0 < X_grid x0 mu sigma dt dW i := by
  intro i
  induction i with
  | zero => exact hx0
  | succ n ih => exact mul_pos ih (Real.exp_pos _)

/-- Entry `i` of the time column of `stock_path`. -/
lemma stock_path_time_get (T : ℝ) (n_steps : ℕ) (x0 mu sigma : ℝ)
    (dW : ℕ → ℝ) {i : ℕ} (hi : i < n_steps + 1) :
    (stock_path T n_steps x0 mu sigma dW).time[i]?
      = some ((i : ℝ) * (T / n_steps)) := by
  simp only [stock_path, List.getElem?_map, List.getElem?_range hi,
    Option.map_some']

/-- Entry `i` of the price column of `stock_path`. -/
lemma stock_path_price_get (T : ℝ) (n_steps : ℕ) (x0 mu sigma : ℝ)
    (dW : ℕ → ℝ) {i : ℕ} (hi : i < n_steps + 1) :
    (stock_path T n_steps x0 mu sigma dW).price[i]?
      = some (X_grid x0 mu sigma (T / n_steps) dW i) := by
  simp only [stock_path, List.getElem?_map, List.getElem?_range hi,
    Option.map_some']

/-- C2: for every T > 0, n_steps ≥ 1, x0 > 0, mu, sigma > 0 and any draw
stream, `stock_path` returns a time grid of exactly n_steps+1 equally
spaced points from 0 to T and a price path of the same length satisfying
`X[0] = x0` and
`X[i+1] = X[i]·exp((mu − 0.5·sigma²)·dt + sigma·√dt·Z[i])` with
`dt = T/n_steps` and `Z` the standard-normal draws (the source draws the
increment `dW[i] = √dt·Z[i]` directly from `N(0, √dt)`). -/
theorem stock_path_grid_and_recurrence (T : ℝ) (n_steps : ℕ) (x0 mu sigma : ℝ)
    (hT : 0 < T) (hn : 1 ≤ n_steps) (hx0 : 0 < x0) (hsig : 0 < sigma)
    (Z : ℕ → ℝ) :
    (stock_path T n_steps x0 mu sigma
        (fun i => Real.sqrt (T / n_steps) * Z i)).time.length = n_steps + 1 ∧
    (stock_path T n_steps x0 mu sigma
        (fun i => Real.sqrt (T / n_steps) * Z i)).price.length = n_steps + 1 ∧
    (stock_path T n_steps x0 mu sigma
        (fun i => Real.sqrt (T / n_steps) * Z i)).time[0]? = some 0 ∧
    (stock_path T n_steps x0 mu sigma
        (fun i => Real.sqrt (T / n_steps) * Z i)).time[n_steps]? = some T ∧
    (∀ i, i < n_steps → ∀ a b,
      (stock_path T n_steps x0 mu sigma
        (fun i => Real.sqrt (T / n_steps) * Z i)).time[i]? = some a →
      (stock_path T n_steps x0 mu sigma
        (fun i => Real.sqrt (T / n_steps) * Z i)).time[i + 1]? = some b →
      b - a = T / n_steps) ∧
    (stock_path T n_steps x0 mu sigma
        (fun i => Real.sqrt (T / n_steps) * Z i)).price[0]? = some x0 ∧
    (∀ i, i < n_steps → ∀ xi,
      (stock_path T n_steps x0 mu sigma
        (fun i => Real.sqrt (T / n_steps) * Z i)).price[i]? = some xi →
      (stock_path T n_steps x0 mu sigma
        (fun i => Real.sqrt (T / n_steps) * Z i)).price[i + 1]?
        = some (xi * Real.exp ((mu - 0.5 * sigma ^ 2) * (T / n_steps)
            + sigma * (Real.sqrt (T / n_steps) * Z i)))) := by
  have hne : ((n_steps : ℝ)) ≠ 0 := Nat.cast_ne_zero.mpr (by omega)
  refine ⟨?_, ?_, ?_, ?_, ?_, ?_, ?_⟩
  · simp only [stock_path, List.length_map, List.length_range]
  · simp only [stock_path, List.length_map, List.length_range]
  · rw [stock_path_time_get T n_steps x0 mu sigma _ (by omega)]
    norm_num
  · rw [stock_path_time_get T n_steps x0 mu sigma _ (by omega)]
    rw [mul_comm, div_mul_cancel₀ T hne]
  · intro i hi a b ha hb
    rw [stock_path_time_get T n_steps x0 mu sigma _ (by omega)] at ha
    rw [stock_path_time_get T n_steps x0 mu sigma _ (by omega)] at hb
    obtain rfl : a = (i : ℝ) * (T / n_steps) := (Option.some_injective _ ha).symm
    obtain rfl : b = ((i + 1 : ℕ) : ℝ) * (T / n_steps) :=
      (Option.some_injective _ hb).symm
    push_cast
    ring
  · rw [stock_path_price_get T n_steps x0 mu sigma _ (by omega)]
    rfl
  · intro i hi xi hxi
    rw [stock_path_price_get T n_steps x0 mu sigma _ (by omega)] at hxi
    rw [stock_path_price_get T n_steps x0 mu sigma _ (by omega)]
    obtain rfl : xi = X_grid x0 mu sigma (T / n_steps)
        (fun i => Real.sqrt (T / n_steps) * Z i) i :=
      (Option.some_injective _ hxi).symm
    rfl

/-- Witness for C2 at T = 1, n_steps = 1, x0 = 1, mu = 0, sigma = 1,
Z = 0. -/
theorem stock_path_grid_and_recurrence_witness :
    ((0:ℝ) < 1 ∧ (1:ℕ) ≤ 1) ∧
    ((stock_path 1 1 1 0 1
        (fun i => Real.sqrt (1 / ((1:ℕ):ℝ)) * (fun _ => (0:ℝ)) i)).time.length
        = 1 + 1 ∧
    (stock_path 1 1 1 0 1
        (fun i => Real.sqrt (1 / ((1:ℕ):ℝ)) * (fun _ => (0:ℝ)) i)).price.length
        = 1 + 1 ∧
    (stock_path 1 1 1 0 1
        (fun i => Real.sqrt (1 / ((1:ℕ):ℝ)) * (fun _ => (0:ℝ)) i)).time[(0:ℕ)]?
        = some 0 ∧
    (stock_path 1 1 1 0 1
        (fun i => Real.sqrt (1 / ((1:ℕ):ℝ)) * (fun _ => (0:ℝ)) i)).time[(1:ℕ)]?
        = some 1 ∧
    (∀ i, i < 1 → ∀ a b,
      (stock_path 1 1 1 0 1
        (fun i => Real.sqrt (1 / ((1:ℕ):ℝ)) * (fun _ => (0:ℝ)) i)).time[i]?
        = some a →
      (stock_path 1 1 1 0 1
        (fun i => Real.sqrt (1 / ((1:ℕ):ℝ)) * (fun _ => (0:ℝ)) i)).time[i + 1]?
        = some b →
      b - a = (1:ℝ) / ((1:ℕ):ℝ)) ∧
    (stock_path 1 1 1 0 1
        (fun i => Real.sqrt (1 / ((1:ℕ):ℝ)) * (fun _ => (0:ℝ)) i)).price[(0:ℕ)]?
        = some 1 ∧
    (∀ i, i < 1 → ∀ xi,
      (stock_path 1 1 1 0 1
        (fun i => Real.sqrt (1 / ((1:ℕ):ℝ)) * (fun _ => (0:ℝ)) i)).price[i]?
        = some xi →
      (stock_path 1 1 1 0 1
        (fun i => Real.sqrt (1 / ((1:ℕ):ℝ)) * (fun _ => (0:ℝ)) i)).price[i + 1]?
        = some (xi * Real.exp ((0 - 0.5 * 1 ^ 2) * (1 / ((1:ℕ):ℝ))
            + 1 * (Real.sqrt (1 / ((1:ℕ):ℝ)) * (fun _ => (0:ℝ)) i))))) :=
  ⟨⟨one_pos, le_refl 1⟩,
    stock_path_grid_and_recurrence 1 1 1 0 1 one_pos (le_refl 1) one_pos
      one_pos (fun _ => 0)⟩

/-- C6: the simulator `stock_path` is deterministic.  The pseudo-random generator
`np.random.default_rng(seed)` is a pure function of its seed, modelled
here by an arbitrary map `rng` from seeds to draw streams; two calls with
the same seed and the same valid parameters produce identical time and
price columns. -/
theorem stock_path_deterministic (rng : ℕ → ℕ → ℝ) (T : ℝ) (n_steps : ℕ)
    (x0 mu sigma : ℝ) (hT : 0 < T) (hn : 1 ≤ n_steps) (hx0 : 0 < x0)
    (hsig : 0 < sigma) (seed : ℕ) :
    (stock_path T n_steps x0 mu sigma (rng seed)).time
        = (stock_path T n_steps x0 mu sigma (rng seed)).time
      ∧ (stock_path T n_steps x0 mu sigma (rng seed)).price
        = (stock_path T n_steps x0 mu sigma (rng seed)).price :=
  ⟨rfl, rfl⟩

/-- Witness for C6 at T = 1, n_steps = 1, x0 = 1, mu = 0, sigma = 1,
seed = 55, rng = fun _ _ => 0. -/
theorem stock_path_deterministic_witness :
    ((0:ℝ) < 1 ∧ 1 ≤ 1) ∧
    ((stock_path 1 1 1 0 1 ((fun _ _ => (0:ℝ)) 55)).time
        = (stock_path 1 1 1 0 1 ((fun _ _ => (0:ℝ)) 55)).time
      ∧ (stock_path 1 1 1 0 1 ((fun _ _ => (0:ℝ)) 55)).price
        = (stock_path 1 1 1 0 1 ((fun _ _ => (0:ℝ)) 55)).price) :=
  ⟨⟨one_pos, le_refl 1⟩,
    stock_path_deterministic (fun _ _ => 0) 1 1 1 0 1 one_pos (le_refl 1)
      one_pos one_pos 55⟩

/-- C7: for every input with x0 > 0 (and any drift, volatility and draws),
every value of the simulated price path is strictly positive: the
multiplicative exp-update preserves positivity at every step. -/
theorem stock_path_positive (T : ℝ) (n_steps : ℕ) (x0 mu sigma : ℝ)
    (hx0 : 0 < x0) (dW : ℕ → ℝ) :
    ∀ v ∈ (stock_path T n_steps x0 mu sigma dW).price, 0 < v := by
  intro v hv
  simp only [stock_path, List.mem_map, List.mem_range] at hv
  obtain ⟨i, _, rfl⟩ := hv
  exact X_grid_pos x0 mu sigma (T / n_steps) dW hx0 i

/-- Witness for C7 at T = 1, n_steps = 2, x0 = 1, mu = 0, sigma = 1,
dW = 0. -/
theorem stock_path_positive_witness :
    (0:ℝ) < 1 ∧ ∀ v ∈ (stock_path 1 2 1 0 1 (fun _ => 0)).price, 0 < v :=
  ⟨one_pos, stock_path_positive 1 2 1 0 1 one_pos (fun _ => 0)⟩

/-- C9: for every equal-length time grid and underlying price path and
every valid contract (option class "call" or "put", positive strike,
maturity, volatility), `option_path` returns an output series of
identical length whose time column is the input time grid unchanged, and
whose price at every index is the scalar pricing function evaluated at
the underlying price at that index, with the same fixed maturity T and rate r
(T is not reduced along the path). -/
theorem option_path_pointwise (t_grid S_grid : List ℝ)
    (hlen : S_grid.length = t_grid.length) (K T sigma r : ℝ)
    (hK : 0 < K) (hT : 0 < T) (hsig : 0 < sigma)
    (ty : String) (hty : ty = "call" ∨ ty = "put") :
    (option_path t_grid S_grid K T sigma ty r).time = t_grid ∧
    (option_path t_grid S_grid K T sigma ty r).price.length = t_grid.length ∧
    (∀ i, i < t_grid.length → ∀ Si, S_grid[i]? = some Si →
      (option_path t_grid S_grid K T sigma ty r).price[i]?
        = black_scholes_price Si K T sigma ty r) := by
  have hgd : ∀ i Si, S_grid[i]? = some Si → S_grid.getD i 0 = Si := by
    intro i Si hSi
    rw [List.getD_eq_getElem?_getD, hSi]
    rfl
  rcases hty with rfl | rfl
  · refine ⟨rfl, ?_, ?_⟩
    · simp only [option_path, String.reduceEq, reduceIte, List.length_map,
        List.length_range]
    · intro i hi Si hSi
      simp only [option_path, black_scholes_price, String.reduceEq, reduceIte,
        List.getElem?_map, List.getElem?_range hi, Option.map_some',
        hgd i Si hSi]
  · refine ⟨rfl, ?_, ?_⟩
    · simp only [option_path, String.reduceEq, reduceIte, List.length_map,
        List.length_range]
    · intro i hi Si hSi
      simp only [option_path, black_scholes_price, String.reduceEq, reduceIte,
        List.getElem?_map, List.getElem?_range hi, Option.map_some',
        hgd i Si hSi]

/-- Witness for C9 at t_grid = [0], S_grid = [10], K = 10, T = 1/2,
sigma = 1/5, r = 2/100, option class "call". -/
theorem option_path_pointwise_witness :
    (([(10:ℝ)].length = [(0:ℝ)].length) ∧ (0:ℝ) < 10 ∧ (0:ℝ) < 1/2
      ∧ (0:ℝ) < 1/5 ∧ ("call" = "call" ∨ "call" = "put")) ∧
    ((option_path [0] [10] 10 (1/2) (1/5) "call" (2/100)).time = [0] ∧
    (option_path [0] [10] 10 (1/2) (1/5) "call" (2/100)).price.length
      = [(0:ℝ)].length ∧
    (∀ i, i < [(0:ℝ)].length → ∀ Si, [(10:ℝ)][i]? = some Si →
      (option_path [0] [10] 10 (1/2) (1/5) "call" (2/100)).price[i]?
        = black_scholes_price Si 10 (1/2) (1/5) "call" (2/100))) :=
  ⟨⟨rfl, by norm_num, by norm_num, by norm_num, Or.inl rfl⟩,
    option_path_pointwise [0] [10] rfl 10 (1/2) (1/5) (2/100)
      (by norm_num) (by norm_num) (by norm_num) "call" (Or.inl rfl)⟩

/-- C10 (implicit): with an option class other than "call" or "put",
`option_path` raises no error and returns a series whose price column is
all zeros of the same length as the input grid, and
`black_scholes_price` returns `None` for every such option class. -/
theorem option_path_unknown_class_zeros (t_grid S_grid : List ℝ)
    (K T sigma r : ℝ) (ty : String) (hc : ty ≠ "call") (hp : ty ≠ "put") :
    (option_path t_grid S_grid K T sigma ty r).time = t_grid ∧
    (option_path t_grid S_grid K T sigma ty r).price
      = List.replicate t_grid.length 0 ∧
    (∀ S0, black_scholes_price S0 K T sigma ty r = none) := by
  refine ⟨rfl, ?_, ?_⟩
  · simp only [option_path, if_neg hc, if_neg hp]
    rw [List.map_const', List.length_range]
  · intro S0
    simp only [black_scholes_price, if_neg hc, if_neg hp]

/-- Witness for C10 with option class "straddle". -/
theorem option_path_unknown_class_zeros_witness :
    ("straddle" ≠ "call" ∧ "straddle" ≠ "put") ∧
    ((option_path [0, 1] [10, 10] 10 (1/2) (1/5) "straddle" (2/100)).time
        = [0, 1] ∧
    (option_path [0, 1] [10, 10] 10 (1/2) (1/5) "straddle" (2/100)).price
      = List.replicate [(0:ℝ), 1].length 0 ∧
    (∀ S0, black_scholes_price S0 10 (1/2) (1/5) "straddle" (2/100) = none)) :=
  ⟨⟨by decide, by decide⟩,
    option_path_unknown_class_zeros [0, 1] [10, 10] 10 (1/2) (1/5) (2/100)
      "straddle" (by decide) (by decide)⟩

/-- C5 counterexample: at the concrete option class "straddle" the call
does not fail: `black_scholes_price` returns `None` (`none`) and
`option_path` still returns a well-formed two-column series of full
length, so no InvalidOptionType error is raised and a price series IS
returned. -/
theorem option_class_no_error_counterexample :
    black_scholes_price 10 10 (1/2) (1/5) "straddle" (2/100) = none ∧
    (option_path [0, 1] [10, 10] 10 (1/2) (1/5) "straddle" (2/100)).time
      = [0, 1] ∧
    (option_path [0, 1] [10, 10] 10 (1/2) (1/5) "straddle" (2/100)).price.length
      = 2 := by
  refine ⟨?_, rfl, ?_⟩
  · simp only [black_scholes_price, String.reduceEq, reduceIte]
  · simp only [option_path, String.reduceEq, reduceIte, List.length_map,
      List.length_range, List.length_cons, List.length_nil]

/-- C5 amended: with an option class outside {"call", "put"}, the scalar
pricing function returns `None` and `option_path` returns, without any
error, a series whose time column is the input grid and whose price
column has the length of the input grid. -/
theorem option_class_unrecognized_returns (t_grid S_grid : List ℝ)
    (K T sigma r S0 : ℝ) (ty : String) (hc : ty ≠ "call") (hp : ty ≠ "put") :
    black_scholes_price S0 K T sigma ty r = none ∧
    (option_path t_grid S_grid K T sigma ty r).time = t_grid ∧
    (option_path t_grid S_grid K T sigma ty r).price.length
      = t_grid.length := by
  refine ⟨?_, rfl, ?_⟩
  · simp only [black_scholes_price, if_neg hc, if_neg hp]
  · simp only [option_path, if_neg hc, if_neg hp, List.length_map,
      List.length_range]

/-- Witness for the amended C5 with option class "x". -/
theorem option_class_unrecognized_returns_witness :
    ("x" ≠ "call" ∧ "x" ≠ "put") ∧
    (black_scholes_price 5 10 (1/2) (1/5) "x" (2/100) = none ∧
    (option_path [0] [5] 10 (1/2) (1/5) "x" (2/100)).time = [0] ∧
    (option_path [0] [5] 10 (1/2) (1/5) "x" (2/100)).price.length
      = [(0:ℝ)].length) :=
  ⟨⟨by decide, by decide⟩,
    option_class_unrecognized_returns [0] [5] 10 (1/2) (1/5) (2/100) 5 ("x")
      (by decide) (by decide)⟩

/-- C3 counterexample: at the concrete invalid volatility sigma = −1 (with
T = 1, n_steps = 2, x0 = 5), `stock_path` does not fail: it returns a
3-point time grid and a 3-point price path starting at 5, so no
InvalidParameter error is raised and a path IS returned. -/
theorem stock_path_no_validation_counterexample :
    (stock_path 1 2 5 0 (-1) (fun _ => 0)).time.length = 3 ∧
    (stock_path 1 2 5 0 (-1) (fun _ => 0)).price.length = 3 ∧
    (stock_path 1 2 5 0 (-1) (fun _ => 0)).price[0]? = some 5 := by
  refine ⟨?_, ?_, ?_⟩
  · simp only [stock_path, List.length_map, List.length_range]
  · simp only [stock_path, List.length_map, List.length_range]
  · rw [stock_path_price_get 1 2 5 0 (-1) (fun _ => 0) (by omega)]
    rfl

/-- C3 amended: `stock_path` performs no parameter validation.  For every
T ≤ 0, x0 ≤ 0 or sigma ≤ 0 (with any step count), the call does not fail:
it returns a time grid and a price path of length n_steps + 1 with
initial price x0, computed by the same formulas.  (For n_steps = 0 the
Python source fails only with a ZeroDivisionError from `dt = T/n_steps`,
not with an InvalidParameter error.) -/
theorem stock_path_invalid_params_returns (T : ℝ) (n_steps : ℕ)
    (x0 mu sigma : ℝ) (dW : ℕ → ℝ)
    (hinvalid : T ≤ 0 ∨ x0 ≤ 0 ∨ sigma ≤ 0) :
    (stock_path T n_steps x0 mu sigma dW).time.length = n_steps + 1 ∧
    (stock_path T n_steps x0 mu sigma dW).price.length = n_steps + 1 ∧
    (stock_path T n_steps x0 mu sigma dW).price[0]? = some x0 := by
  refine ⟨?_, ?_, ?_⟩
  · simp only [stock_path, List.length_map, List.length_range]
  · simp only [stock_path, List.length_map, List.length_range]
  · rw [stock_path_price_get T n_steps x0 mu sigma dW (by omega)]
    rfl

/-- Witness for the amended C3 at sigma = −1. -/
theorem stock_path_invalid_params_returns_witness :
    ((1:ℝ) ≤ 0 ∨ (5:ℝ) ≤ 0 ∨ (-1:ℝ) ≤ 0) ∧
    ((stock_path 1 2 5 0 (-1) (fun _ => (0:ℝ))).time.length = 2 + 1 ∧
    (stock_path 1 2 5 0 (-1) (fun _ => (0:ℝ))).price.length = 2 + 1 ∧
    (stock_path 1 2 5 0 (-1) (fun _ => (0:ℝ))).price[0]? = some 5) :=
  ⟨Or.inr (Or.inr (by norm_num)),
    stock_path_invalid_params_returns 1 2 5 0 (-1) (fun _ => 0)
      (Or.inr (Or.inr (by norm_num)))⟩

/-- C4 counterexample: at the concrete invalid volatility sigma = −1/10
(the test input named by the spec, with S = 10, K = 10, T = 1/2, r = 2/100),
`option_path` does not fail: it returns a series whose time column is the
input grid and whose single price is the value of the call-branch formula
at sigma = −1/10, so no InvalidParameter error is raised and a value IS
returned. -/
theorem option_path_no_validation_counterexample :
    (option_path [0] [10] 10 (1/2) (-1/10) "call" (2/100)).time = [0] ∧
    (option_path [0] [10] 10 (1/2) (-1/10) "call" (2/100)).price.length
      = 1 ∧
    (option_path [0] [10] 10 (1/2) (-1/10) "call" (2/100)).price[0]?
      = some (bs_call 10 10 (1/2) (-1/10) (2/100)) := by
  refine ⟨rfl, ?_, ?_⟩
  · simp only [option_path, String.reduceEq, reduceIte, List.length_map,
      List.length_range, List.length_cons, List.length_nil]
  · simp only [option_path, String.reduceEq, reduceIte, List.getElem?_map,
      List.length_cons, List.length_nil]
    rfl

/-- C4 amended: `option_path` performs no input validation.  For every
strike ≤ 0, maturity ≤ 0, volatility ≤ 0 or some underlying price ≤ 0,
the call does not fail: it returns a series whose time column is the
input grid unchanged and whose price column has the length of the input grid,
computed by the same formulas (in particular strike = 0 or volatility =
−0.1 does not raise, as no InvalidParameter error exists in the code). -/
theorem option_path_invalid_params_returns (t_grid S_grid : List ℝ)
    (K T sigma r : ℝ) (ty : String)
    (hinvalid : K ≤ 0 ∨ T ≤ 0 ∨ sigma ≤ 0 ∨ ∃ S0 ∈ S_grid, S0 ≤ 0) :
    (option_path t_grid S_grid K T sigma ty r).time = t_grid ∧
    (option_path t_grid S_grid K T sigma ty r).price.length
      = t_grid.length := by
  refine ⟨rfl, ?_⟩
  rcases Decidable.em (ty = "call") with h1 | h1
  · simp only [option_path, if_pos h1, List.length_map, List.length_range]
  rcases Decidable.em (ty = "put") with h2 | h2
  · simp only [option_path, if_neg h1, if_pos h2, List.length_map,
      List.length_range]
  · simp only [option_path, if_neg h1, if_neg h2, List.length_map,
      List.length_range]

/-- Witness for the amended C4 at volatility −1/10. -/
theorem option_path_invalid_params_returns_witness :
    ((10:ℝ) ≤ 0 ∨ (1:ℝ)/2 ≤ 0 ∨ (-1:ℝ)/10 ≤ 0
      ∨ ∃ S0 ∈ [(10:ℝ)], S0 ≤ 0) ∧
    ((option_path [0] [10] 10 (1/2) (-1/10) "call" (2/100)).time = [0] ∧
    (option_path [0] [10] 10 (1/2) (-1/10) "call" (2/100)).price.length
      = [(0:ℝ)].length) :=
  ⟨Or.inr (Or.inr (Or.inl (by norm_num))),
    option_path_invalid_params_returns [0] [10] 10 (1/2) (-1/10) (2/100)
      "call" (Or.inr (Or.inr (Or.inl (by norm_num))))⟩

end DeepPricing
